import Mathlib

/-
Shallow embedding of the hash table in src/src/lib.rs.

The source is generic over a key type K with a Hash implementation; every key
is hashed through DefaultHasher to a u64 hash code, which is a deterministic
function of the key for a fixed Hash implementation. The embedding therefore
takes the composite hash function as an explicit parameter hash : K -> Nat.

Buckets (line 44) is Vec of Option KV: each bucket is a single optional slot,
not a chain. The table (lines 52-60) holds the bucket vector and a size
counter.

The methods insert (lines 77-91) and resize (lines 117-126) are mutually
recursive: resize re-inserts every stored entry by calling insert, and those
inner inserts check the load condition again, so they can trigger a nested
resize. The embedding makes this recursion total with a fuel parameter: every
recursive call consumes one unit of fuel, and exhausted fuel yields none.
A none result only ever means insufficient fuel, never a behaviour of the
source; theorems about runs are stated for fuels large enough to finish.
-/

namespace HashTableModel

/-- The KV struct of lines 46-50: one key-value entry. -/
structure KV (K V : Type) where
  key : K
  value : V
deriving DecidableEq, Repr

/-- The Buckets alias of line 44: a vector of single optional slots. -/
abbrev Buckets (K V : Type) := List (Option (KV K V))

/-- The HashTable struct of lines 52-60: the bucket vector plus a size counter. -/
structure HashTable (K V : Type) where
  buckets : Buckets K V
  size : Nat
deriving DecidableEq, Repr

/-- The DEFAULT_BUCKET_SIZE constant of line 42. -/
def DEFAULT_BUCKET_SIZE : Nat := 100

namespace HashTable

variable {K V : Type}

/-- The new constructor of lines 67-71: with_capacity buckets, all None, size 0. -/
def new (with_capacity : Nat) : HashTable K V :=
  { buckets := List.replicate with_capacity none, size := 0 }

/-- The create_index method of lines 108-115: hash code modulo bucket count. -/
def create_index (hash : K → Nat) (t : HashTable K V) (k : K) : Nat :=
  hash k % t.buckets.length

mutual

/-- The insert method of lines 77-91: when size + 1 exceeds the bucket count,
resize first; then overwrite the bucket at the index of the key (computed on
the possibly resized table) with the new entry and increment size. The first
argument after hash is fuel for the insert-resize recursion. -/
def insertF (hash : K → Nat) : Nat → HashTable K V → K → V → Option (HashTable K V)
  | 0, _, _, _ => none
  | fuel + 1, t, k, v =>
    match (if t.size + 1 > t.buckets.length then resizeF hash fuel t else some t) with
    | none => none
    | some t1 =>
      some { buckets := t1.buckets.set (create_index hash t1 k) (some ⟨k, v⟩),
             size := t1.size + 1 }

/-- The resize method of lines 117-126: replace the bucket vector by a fresh
all-None vector of the old length plus DEFAULT_BUCKET_SIZE, then re-insert
every stored entry of the old vector, in order, through insert. -/
def resizeF (hash : K → Nat) : Nat → HashTable K V → Option (HashTable K V)
  | 0, _ => none
  | fuel + 1, t =>
    reinsertF hash fuel
      { buckets := List.replicate (t.buckets.length + DEFAULT_BUCKET_SIZE) none,
        size := t.size }
      t.buckets

/-- The for loop of lines 121-125 inside resize: walk the old bucket vector
and re-insert each Some entry through insert. -/
def reinsertF (hash : K → Nat) : Nat → HashTable K V → Buckets K V → Option (HashTable K V)
  | 0, _, _ => none
  | _ + 1, t, [] => some t
  | fuel + 1, t, none :: rest => reinsertF hash fuel t rest
  | fuel + 1, t, some kv :: rest =>
    match insertF hash fuel t kv.key kv.value with
    | none => none
    | some t1 => reinsertF hash fuel t1 rest

end

/-- The get method of lines 93-98: read the bucket at the index of the key and
return its value only when the stored key equals the queried key. Indexing in
the source panics only when the capacity is zero; the model is used with the
bound create_index < capacity available whenever capacity is positive. -/
def get [DecidableEq K] (hash : K → Nat) (t : HashTable K V) (k : K) : Option V :=
  (t.buckets.getD (create_index hash t k) none).bind
    (fun kv => if kv.key = k then some kv.value else none)

/-- The delete method of lines 100-102: its body is the todo placeholder,
which panics unconditionally, so no call returns normally; a panic is
modelled as none. The source signature takes a String key regardless of K
and returns unit. -/
def delete (_t : HashTable K V) (_key : String) : Option Unit := none

/-- The keys method of lines 104-106: its body is the todo placeholder,
which panics unconditionally, so no call returns normally; a panic is
modelled as none. -/
def keys (_t : HashTable K V) : Option Unit := none

/-- A driver folding insert over a list of pairs, modelling a client calling
insert repeatedly; each call gets the same fuel. -/
def runInserts (hash : K → Nat) (fuel : Nat) : HashTable K V → List (K × V) → Option (HashTable K V)
  | t, [] => some t
  | t, (k, v) :: rest =>
    match insertF hash fuel t k v with
    | none => none
    | some t1 => runInserts hash fuel t1 rest

/-- The number of live entries stored in a bucket vector: the Some slots. -/
def liveCount (l : Buckets K V) : Nat := (l.filterMap id).length

/-- Helper for the no-resize regime: the effect of the re-insertion loop of
resize when none of the inner inserts crosses the load condition. Each Some
entry of the walked list is placed, in order, at its index under the current
capacity, and size is incremented once per placed entry. -/
def placeList (hash : K → Nat) : HashTable K V → Buckets K V → HashTable K V
  | t, [] => t
  | t, none :: rest => placeList hash t rest
  | t, some kv :: rest =>
    placeList hash
      { buckets := t.buckets.set (create_index hash t kv.key) (some ⟨kv.key, kv.value⟩),
        size := t.size + 1 } rest

/-- A hash function with codes 0, 103, 2, 5 for keys 0, 1, 2, 3: all indices
are distinct modulo capacity 3, but keys 0 and 1 collide modulo capacity 103. -/
def hashC4 : Nat → Nat := fun k =>
  if k = 0 then 0 else if k = 1 then 103 else if k = 2 then 2 else 5

/-- A concrete full table of capacity 1 holding the entry (0, 10), used to
exercise the resize trigger at a concrete input. -/
def wt10 : HashTable Nat Nat := ⟨[some ⟨0, 10⟩], 1⟩

theorem placeList_length (hash : K → Nat) (l : Buckets K V) :
    ∀ t : HashTable K V, (placeList hash t l).buckets.length = t.buckets.length := by
  induction l with
  | nil => intro t; rfl
  | cons head rest ih =>
    intro t
    cases head with
    | none => simpa [placeList] using ih t
    | some kv => simp [placeList, ih]

theorem placeList_size (hash : K → Nat) (l : Buckets K V) :
    ∀ t : HashTable K V, (placeList hash t l).size = t.size + liveCount l := by
  induction l with
  | nil => intro t; simp [placeList, liveCount]
  | cons head rest ih =>
    intro t
    cases head with
    | none => simp [placeList, liveCount] at ih ⊢; exact ih t
    | some kv => simp [placeList, liveCount, ih]; omega

theorem insertF_no_trigger (hash : K → Nat) (fuel : Nat) (t : HashTable K V) (k : K) (v : V)
    (h : t.size + 1 ≤ t.buckets.length) :
    insertF hash (fuel + 1) t k v =
      some { buckets := t.buckets.set (create_index hash t k) (some ⟨k, v⟩),
             size := t.size + 1 } := by
  have hnt : ¬ t.size + 1 > t.buckets.length := by omega
  simp [insertF, hnt]

theorem reinsertF_no_trigger (hash : K → Nat) (l : Buckets K V) :
    ∀ (fuel : Nat) (t : HashTable K V), l.length + 1 ≤ fuel →
      t.size + liveCount l ≤ t.buckets.length →
      reinsertF hash fuel t l = some (placeList hash t l) := by
  induction l with
  | nil =>
    intro fuel t hf _
    obtain ⟨g, rfl⟩ : ∃ g, fuel = g + 1 := ⟨fuel - 1, by omega⟩
    rfl
  | cons head rest ih =>
    intro fuel t hf hs
    obtain ⟨g, rfl⟩ : ∃ g, fuel = g + 1 := ⟨fuel - 1, by omega⟩
    have hg : rest.length + 1 ≤ g := by simp at hf; omega
    cases head with
    | none =>
      have hs2 : t.size + liveCount rest ≤ t.buckets.length := by
        simpa [liveCount] using hs
      simpa [reinsertF, placeList] using ih g t hg hs2
    | some kv =>
      obtain ⟨g', rfl⟩ : ∃ g', g = g' + 1 := ⟨g - 1, by omega⟩
      have hlive : t.size + (liveCount rest + 1) ≤ t.buckets.length := by
        simpa [liveCount] using hs
      simp only [reinsertF, insertF_no_trigger hash g' t kv.key kv.value (by omega), placeList]
      refine ih (g' + 1) _ hg ?_
      show t.size + 1 + liveCount rest ≤
        (t.buckets.set (create_index hash t kv.key) (some ⟨kv.key, kv.value⟩)).length
      rw [List.length_set]
      omega

/-- C1: the claim states that after inserting two distinct keys that hash to
the same bucket index, get on each key returns the value of that key. The
code stores one optional entry per bucket, so the second colliding insert
overwrites the first: with a degenerate hash sending every key to code 0 and
capacity 3, after inserting keys 0 and 1, get on key 0 returns none instead
of some 10. The claim is false of the code. -/
theorem c1_colliding_insert_overwrites_first_entry :
    (runInserts (fun _ => 0) 10 (new 3 : HashTable Nat Nat) [(0, 10), (1, 20)]).map
        (fun t => (get (fun _ => 0) t 0, get (fun _ => 0) t 1, t.size)) =
      some (none, some 20, 2) := by decide

/-- C2: the claim states that size always equals the number of live entries
and that n distinct-key inserts give size n regardless of resizes. In the
code, resize re-inserts the surviving entries through insert, which
increments size once more per entry: from new 1, inserting keys 0 and 1
(distinct hash codes 0 and 1) triggers one resize and ends with size 3 while
only 2 live entries are stored. The claim is false of the code. -/
theorem c2_size_overcounts_after_resize :
    (runInserts (fun k => k) 10 (new 1 : HashTable Nat Nat) [(0, 10), (1, 20)]).map
        (fun t => (t.size, liveCount t.buckets)) = some (3, 2) := by decide

/-- C3: the claim states that inserting an existing key replaces the value
and leaves size unchanged. The code never checks whether the key is already
present and unconditionally increments size: from new 3, inserting key 0
twice ends with the value replaced (get returns some 2) but size 2 instead
of 1. The claim is false of the code. -/
theorem c3_duplicate_key_insert_increments_size :
    (runInserts (fun k => k) 10 (new 3 : HashTable Nat Nat) [(0, 1), (0, 2)]).map
        (fun t => (get (fun k => k) t 0, t.size)) = some (some 2, 2) := by decide

/-- C4: the claim states that every entry present when a resize is triggered
is still retrievable afterwards. With capacity 3 and hash codes 0, 103, 2,
the first three entries occupy distinct buckets and are all retrievable;
inserting a fourth key triggers the resize to capacity 103, under which codes
0 and 103 collide at index 0, and the single-slot re-insertion overwrites the
entry of key 0: get on key 0 returns none after the resize instead of
some 10. The claim is false of the code. -/
theorem c4_resize_loses_entry_on_new_capacity_collision :
    ((runInserts hashC4 20 (new 3 : HashTable Nat Nat) [(0, 10), (1, 20), (2, 30)]).map
        (fun t => get hashC4 t 0) = some (some 10)) ∧
    ((runInserts hashC4 20 (new 3 : HashTable Nat Nat)
          [(0, 10), (1, 20), (2, 30), (3, 40)]).map
        (fun t => (get hashC4 t 0, get hashC4 t 1, get hashC4 t 2, get hashC4 t 3,
          t.buckets.length)) = some (none, some 20, some 30, some 40, 103)) :=
  ⟨by decide, by decide⟩

/-- C5: the claim states that delete removes the entry of the key if present,
decrements size by one, is a no-op on an absent key, terminates normally and
reports whether a removal happened. The delete method in the source is the
todo placeholder, so every call panics and produces no result, here evaluated
on a concrete table and key. The claim is false of the code. -/
theorem c5_delete_never_returns :
    delete (new 3 : HashTable String Nat) "a" = none := rfl

/-- C6: get returns a value only when the key stored at the computed index
equals the queried key; a bucket holding the entry of a different colliding
key yields none. This is the key-equality check of lines 95 to 97 of the
source. -/
theorem c6_get_requires_key_equality [DecidableEq K] (hash : K → Nat) (t : HashTable K V)
    (k : K) (kv : KV K V)
    (hb : t.buckets.getD (create_index hash t k) none = some kv)
    (hne : kv.key ≠ k) :
    get hash t k = none := by
  unfold get
  rw [hb]
  simp [hne]

/-- Witness for C6: a table whose single bucket holds the entry of key 1,
queried at the colliding key 0 under a degenerate hash. -/
theorem c6_get_requires_key_equality_witness :
    ((⟨[some ⟨1, 20⟩], 1⟩ : HashTable Nat Nat).buckets.getD
        (create_index (fun _ => 0) (⟨[some ⟨1, 20⟩], 1⟩ : HashTable Nat Nat) 0) none =
      some ⟨1, 20⟩) ∧
    (KV.key (⟨1, 20⟩ : KV Nat Nat) ≠ 0) ∧
    get (fun _ => 0) (⟨[some ⟨1, 20⟩], 1⟩ : HashTable Nat Nat) 0 = none :=
  ⟨by decide, by decide,
    c6_get_requires_key_equality (fun _ => 0) _ 0 ⟨1, 20⟩ (by decide) (by decide)⟩

/-- C7: the claim states that iteration yields every live entry exactly once
and terminates normally on every table state. The keys method in the source
is the todo placeholder, so every call panics and yields no sequence, here
evaluated on a table holding the two entries of the spec scenario. The claim
is false of the code. -/
theorem c7_keys_never_returns :
    (runInserts (fun k => k) 10 (new 3 : HashTable Nat Nat) [(0, 1), (1, 2)]).map keys =
      some none := by decide

/-- C8 counterexample: the claim asserts that every table built by new has a
nonzero capacity, but new 0 builds a table with zero buckets; on it the
modulo of create_index divides by zero in the source. -/
theorem c8_counterexample_new_zero_capacity :
    ¬ 0 < (new 0 : HashTable Nat Nat).buckets.length := by decide

/-- C8 amended: for every requested capacity c greater than zero, new c has
exactly c buckets and create_index lands strictly below c for every key, so
the bucket indexing of insert and get stays in bounds and the modulo of
create_index never divides by zero. -/
theorem c8_amended_index_in_bounds (hash : K → Nat) (c : Nat) (k : K) (hc : 0 < c) :
    (new c : HashTable K V).buckets.length = c ∧
      create_index hash (new c : HashTable K V) k < c := by
  constructor
  · simp [new]
  · simpa [create_index, new] using Nat.mod_lt (hash k) hc

/-- Witness for the amended C8 at capacity 3 and key 7. -/
theorem c8_amended_index_in_bounds_witness :
    0 < 3 ∧ ((new 3 : HashTable Nat Nat).buckets.length = 3 ∧
      create_index (fun n => n) (new 3 : HashTable Nat Nat) 7 < 3) :=
  ⟨by decide, c8_amended_index_in_bounds (fun n => n) 3 7 (by decide)⟩

/-- C9: create_index is deterministic: it reads only the hash code of the key
and the bucket count, so two tables with equal capacity give the same index
for the same key under the same hash function. -/
theorem c9_create_index_deterministic (hash : K → Nat) (t1 t2 : HashTable K V) (k : K)
    (hcap : t1.buckets.length = t2.buckets.length) :
    create_index hash t1 k = create_index hash t2 k := by
  simp [create_index, hcap]

/-- Witness for C9: the empty table of capacity 3 and a one-entry table of
capacity 3 agree on the index of key 5. -/
theorem c9_create_index_deterministic_witness :
    ((new 3 : HashTable Nat Nat).buckets.length =
        (⟨[some ⟨0, 1⟩, none, none], 1⟩ : HashTable Nat Nat).buckets.length) ∧
      create_index (fun n => n) (new 3 : HashTable Nat Nat) 5 =
        create_index (fun n => n) (⟨[some ⟨0, 1⟩, none, none], 1⟩ : HashTable Nat Nat) 5 :=
  ⟨by decide, c9_create_index_deterministic (fun n => n) _ _ 5 (by decide)⟩

/-- C10: the growth policy of the code. Insert triggers a resize exactly when
size plus one exceeds the current bucket count, checked before the entry is
placed and before its bucket index is computed; the resize replaces the
bucket vector by a fresh one of the old length plus DEFAULT_BUCKET_SIZE (100)
and re-inserts every stored entry at its index under the new capacity, after
which the pending entry is placed at its index under the new capacity and
size is incremented past the re-counted entries. Stated for any fuel large
enough to finish and for states whose re-insertion does not itself cross the
load condition again. -/
theorem c10_growth_policy (hash : K → Nat) (fuel : Nat) (t : HashTable K V) (k : K) (v : V)
    (hfuel : t.buckets.length + 3 ≤ fuel)
    (hnc : t.size + liveCount t.buckets ≤ t.buckets.length + DEFAULT_BUCKET_SIZE) :
    (t.size + 1 ≤ t.buckets.length →
      insertF hash fuel t k v =
        some { buckets := t.buckets.set (hash k % t.buckets.length) (some ⟨k, v⟩),
               size := t.size + 1 }) ∧
    (t.buckets.length < t.size + 1 →
      resizeF hash (fuel - 1) t =
        some (placeList hash
          { buckets := List.replicate (t.buckets.length + DEFAULT_BUCKET_SIZE) none,
            size := t.size } t.buckets) ∧
      (placeList hash
          { buckets := List.replicate (t.buckets.length + DEFAULT_BUCKET_SIZE) none,
            size := t.size } t.buckets).buckets.length =
        t.buckets.length + DEFAULT_BUCKET_SIZE ∧
      insertF hash fuel t k v =
        some { buckets :=
                 (placeList hash
                     { buckets :=
                         List.replicate (t.buckets.length + DEFAULT_BUCKET_SIZE) none,
                       size := t.size } t.buckets).buckets.set
                   (hash k % (t.buckets.length + DEFAULT_BUCKET_SIZE)) (some ⟨k, v⟩),
               size := t.size + liveCount t.buckets + 1 }) := by
  obtain ⟨f, rfl⟩ : ∃ f, fuel = f + 1 := ⟨fuel - 1, by omega⟩
  constructor
  · intro h
    simpa [create_index] using insertF_no_trigger hash f t k v h
  · intro h
    obtain ⟨g, rfl⟩ : ∃ g, f = g + 1 := ⟨f - 1, by omega⟩
    have hre : reinsertF hash g
        { buckets := List.replicate (t.buckets.length + DEFAULT_BUCKET_SIZE) none,
          size := t.size } t.buckets =
        some (placeList hash
          { buckets := List.replicate (t.buckets.length + DEFAULT_BUCKET_SIZE) none,
            size := t.size } t.buckets) := by
      refine reinsertF_no_trigger hash t.buckets g _ (by omega) ?_
      show t.size + liveCount t.buckets ≤
        (List.replicate (t.buckets.length + DEFAULT_BUCKET_SIZE)
          (none : Option (KV K V))).length
      rw [List.length_replicate]
      exact hnc
    have hidx : create_index hash
        (placeList hash
          { buckets := List.replicate (t.buckets.length + DEFAULT_BUCKET_SIZE) none,
            size := t.size } t.buckets) k =
        hash k % (t.buckets.length + DEFAULT_BUCKET_SIZE) := by
      unfold create_index
      rw [placeList_length]
      simp
    have hsz : (placeList hash
        { buckets := List.replicate (t.buckets.length + DEFAULT_BUCKET_SIZE) none,
          size := t.size } t.buckets).size = t.size + liveCount t.buckets := by
      rw [placeList_size]
    have hgt : t.size + 1 > t.buckets.length := h
    refine ⟨?_, ?_, ?_⟩
    · simpa only [Nat.add_sub_cancel, resizeF] using hre
    · rw [placeList_length]
      simp
    · simp only [insertF, if_pos hgt, resizeF, hre, hidx, hsz]

/-- Witness for C10 at the concrete full table wt10 of capacity 1: inserting
key 1 under the identity hash triggers the resize to capacity 101. -/
theorem c10_growth_policy_witness :
    (wt10.buckets.length + 3 ≤ 10 ∧
      wt10.size + liveCount wt10.buckets ≤ wt10.buckets.length + DEFAULT_BUCKET_SIZE) ∧
    ((wt10.size + 1 ≤ wt10.buckets.length →
        insertF (fun n => n) 10 wt10 1 20 =
          some { buckets := wt10.buckets.set (1 % wt10.buckets.length) (some ⟨1, 20⟩),
                 size := wt10.size + 1 }) ∧
      (wt10.buckets.length < wt10.size + 1 →
        resizeF (fun n => n) (10 - 1) wt10 =
          some (placeList (fun n => n)
            { buckets := List.replicate (wt10.buckets.length + DEFAULT_BUCKET_SIZE) none,
              size := wt10.size } wt10.buckets) ∧
        (placeList (fun n => n)
            { buckets := List.replicate (wt10.buckets.length + DEFAULT_BUCKET_SIZE) none,
              size := wt10.size } wt10.buckets).buckets.length =
          wt10.buckets.length + DEFAULT_BUCKET_SIZE ∧
        insertF (fun n => n) 10 wt10 1 20 =
          some { buckets :=
                   (placeList (fun n => n)
                       { buckets :=
                           List.replicate (wt10.buckets.length + DEFAULT_BUCKET_SIZE) none,
                         size := wt10.size } wt10.buckets).buckets.set
                     (1 % (wt10.buckets.length + DEFAULT_BUCKET_SIZE))
                     (some ⟨1, 20⟩),
                 size := wt10.size + liveCount wt10.buckets + 1 })) :=
  ⟨⟨by decide, by decide⟩,
    c10_growth_policy (fun n => n) 10 wt10 1 20 (by decide) (by decide)⟩

end HashTable

end HashTableModel
